import Mathlib

/-!
Verification of the Boolean Solid Composition & Interactive Transform Engine
of `src/src/renderer/App.jsx` (cad3d).

Shallow embedding conventions:
* JS numbers are modelled by `ℚ`.  A JS value that may be `NaN`/`undefined`
  (a non-finite number or a missing record field) is modelled by `Option ℚ`,
  with `none` standing for the non-finite/absent case; arithmetic on such
  values propagates `none` exactly as JS arithmetic propagates `NaN`.
* `dimensions` is a loose JS record with shape-dependent fields, modelled as
  a record of four `Option ℚ` fields (absent field = `none`).
* `Math.round(x)` on finite inputs is `⌊x + 1/2⌋`, which is Mathlib's `round`.
-/

/-- `type` field of a primitive: `'box' | 'sphere' | 'cylinder'` (App.jsx TYPE_PRESETS). -/
inductive ShapeType where
  | box
  | sphere
  | cylinder
  deriving DecidableEq, Repr

/-- `operation` field of a primitive: `'add' | 'subtract'`. -/
inductive Operation where
  | add
  | subtract
  deriving DecidableEq, Repr

/-- A 3-component numeric vector (used for positions and scale factors). -/
structure Vec3 where
  x : ℚ
  y : ℚ
  z : ℚ
  deriving DecidableEq, Repr

/-- The loose `dimensions` record of a primitive.  JS stores only the fields
relevant to the shape kind; an absent field reads as `undefined`, modelled by
`none`. -/
structure Dimensions where
  width : Option ℚ
  height : Option ℚ
  depth : Option ℚ
  radius : Option ℚ
  deriving DecidableEq, Repr

/-- A primitive record (App.jsx data model).  The JS `id` is an opaque string;
`name` is free text. -/
structure Primitive where
  id : String
  name : String
  type : ShapeType
  operation : Operation
  position : Vec3
  dimensions : Dimensions
  deriving DecidableEq, Repr

/-- The Primitive Store: the ordered list `primitives` plus `selectedId`
(`useState` pair in `App`). -/
structure StoreState where
  primitives : List Primitive
  selectedId : Option String
  deriving DecidableEq, Repr

/-- `TYPE_PRESETS` entry (App.jsx:35-48). -/
structure TypePreset where
  label : String
  dimensions : Dimensions
  deriving DecidableEq, Repr

/-- `TYPE_PRESETS` (App.jsx:35-48): default label and dimensions per shape kind. -/
def TYPE_PRESETS : ShapeType → TypePreset
  | .box => { label := ("Box"), dimensions := ⟨some 2, some 2, some 2, none⟩ }
  | .sphere => { label := ("Sphere"), dimensions := ⟨none, none, none, some (3/2)⟩ }
  | .cylinder => { label := ("Cylinder"), dimensions := ⟨none, some 3, none, some (11/10)⟩ }

/-- `parseNumber(value, fallback)` (App.jsx:52-55): `Number.parseFloat` of the
input followed by a `Number.isFinite` gate.  The already-parsed input is
`Option ℚ`, `none` when parseFloat produced a non-finite value; the fallback is
also `Option ℚ` because some call sites pass a possibly-absent dimension field. -/
def parseNumber (value fallback : Option ℚ) : Option ℚ :=
  match value with
  | some parsed => some parsed
  | none => fallback

/-- `roundValue(value, precision = 2)` (App.jsx:57-60):
`Math.round(value * 10^precision) / 10^precision`.  All call sites use the
default precision 2, passed explicitly here. -/
def roundValue (value : ℚ) (precision : ℕ) : ℚ :=
  let multiplier : ℚ := 10 ^ precision
  ((round (value * multiplier) : ℤ) : ℚ) / multiplier

/-- `positionToWorld` (App.jsx:69-73): user-space (Z up) to engine-space (Y up). -/
def positionToWorld (p : Vec3) : Vec3 :=
  { x := p.x, y := p.z, z := p.y }

/-- `positionFromWorld` (App.jsx:75-79): engine-space (Y up) to user-space (Z up). -/
def positionFromWorld (p : Vec3) : Vec3 :=
  { x := p.x, y := p.z, z := p.y }

/-- Componentwise `roundValue` at precision 2 — the rounding the translate
commit applies to each coordinate. -/
def roundVec (p : Vec3) : Vec3 :=
  { x := roundValue p.x 2, y := roundValue p.y 2, z := roundValue p.z 2 }

/-- The position computed by `finalizeTranslate` (App.jsx:479-488): each
engine-space component is rounded, then the vector is remapped by
`positionFromWorld`. -/
def finalizeTranslatePosition (enginePos : Vec3) : Vec3 :=
  positionFromWorld (roundVec enginePos)

/-- `patchPrimitive(id, updater)` (App.jsx:90-97): map over the list, applying
the updater to the item whose id matches; other items are returned unchanged.
The JS updater may be a function or an object to merge; the object form is the
corresponding merge function. -/
def patchPrimitive (id : String) (updater : Primitive → Primitive) (st : StoreState) :
    StoreState :=
  { st with
    primitives := st.primitives.map fun item =>
      if item.id = id then updater item else item }

/-- The fresh primitive built by `addPrimitive(type)` (App.jsx:99-116).  The
random id and the random two-digit name suffix are taken as parameters.  The
seated height is `preset.dimensions.height / 2` when the preset has a truthy
`height` field, else `preset.dimensions.radius` (presets guarantee the field
read in each branch is present). -/
def newPrimitive (id : String) (nameNum : ℕ) (type : ShapeType) : Primitive :=
  let preset := TYPE_PRESETS type
  { id := id
    name := preset.label ++ (" ") ++ toString nameNum
    type := type
    operation := if type = .sphere then .subtract else .add
    position :=
      { x := 0, y := 0
        z :=
          match preset.dimensions.height with
          | some h => if h = 0 then (preset.dimensions.radius).getD 0 else h / 2
          | none => (preset.dimensions.radius).getD 0 }
    dimensions := preset.dimensions }

/-- `addPrimitive(type)` (App.jsx:99-116): append the fresh primitive at the
end of the list and select it. -/
def addPrimitive (id : String) (nameNum : ℕ) (type : ShapeType) (st : StoreState) :
    StoreState :=
  { primitives := st.primitives ++ [newPrimitive id nameNum type]
    selectedId := some id }

/-- `removePrimitive(id)` (App.jsx:129-141): filter the list by id, then update
the selection: `null` if the filtered list is empty; the id of the new last
element if the old selection equals the removed id or is not among the
remaining items; otherwise unchanged. -/
def removePrimitive (id : String) (st : StoreState) : StoreState :=
  let filtered := st.primitives.filter fun item => item.id ≠ id
  let nextSelected : Option String :=
    if filtered.isEmpty then none
    else if st.selectedId = some id ∨ ¬ filtered.any (fun item => st.selectedId = some item.id) then
      filtered.getLast?.map fun item => item.id
    else st.selectedId
  { primitives := filtered, selectedId := nextSelected }

/-- `reorderPrimitive(id, direction)` (App.jsx:143-155): find the item's index
(no-op when absent), compute `targetIndex = index + direction`, no-op when the
target is out of range, otherwise splice the item out and re-insert it at the
target index.  The selection is untouched. -/
def reorderPrimitive (id : String) (direction : ℤ) (st : StoreState) : StoreState :=
  match st.primitives.findIdx? (fun primitive => primitive.id = id) with
  | none => st
  | some index =>
    let targetIndex : ℤ := (index : ℤ) + direction
    if targetIndex < 0 ∨ (st.primitives.length : ℤ) ≤ targetIndex then st
    else
      match st.primitives[index]? with
      | none => st
      | some moved =>
        { st with
          primitives := (st.primitives.eraseIdx index).insertIdx targetIndex.toNat moved }

section ListHelpers

variable {α : Type _}

/-- `findIdx?` over `A ++ x :: B` finds `x` at index `A.length` when no element
of `A` satisfies the predicate and `x` does. -/
theorem findIdx?_append_first (A B : List α) (x : α) (p : α → Bool)
    (hA : ∀ a ∈ A, p a = false) (hx : p x = true) :
    (A ++ x :: B).findIdx? p = some A.length := by
  induction A with
  | nil => simp [hx]
  | cons a A ih =>
    have ha : p a = false := hA a (List.mem_cons_self a A)
    have ih' := ih fun b hb => hA b (List.mem_cons_of_mem a hb)
    simp [ha, List.findIdx?_succ, ih']

/-- Indexing `A ++ x :: B` at `A.length` yields `x`. -/
theorem getElem?_append_length (A B : List α) (x : α) :
    (A ++ x :: B)[A.length]? = some x := by
  induction A with
  | nil => simp
  | cons a A ih => simpa using ih

/-- Erasing index `A.length` from `A ++ x :: B` removes exactly `x`. -/
theorem eraseIdx_append_length (A B : List α) (x : α) :
    (A ++ x :: B).eraseIdx A.length = A ++ B := by
  induction A with
  | nil => rfl
  | cons a A ih => simpa using ih

/-- Inserting `x` at index `A.length` into `A ++ B` puts it between `A` and `B`. -/
theorem insertIdx_append_length (A B : List α) (x : α) :
    (A ++ B).insertIdx A.length x = A ++ x :: B := by
  induction A with
  | nil => rfl
  | cons a A ih => simpa [List.insertIdx_succ_cons] using ih

/-- Filtering `A ++ x :: B` with a predicate that holds on `A` and `B` but not
on `x` removes exactly `x`. -/
theorem filter_append_middle (A B : List α) (x : α) (p : α → Bool)
    (hA : ∀ a ∈ A, p a = true) (hB : ∀ b ∈ B, p b = true) (hx : p x = false) :
    (A ++ x :: B).filter p = A ++ B := by
  rw [List.filter_append, List.filter_cons_of_neg (by simp [hx]),
    List.filter_eq_self.mpr hA, List.filter_eq_self.mpr hB]

end ListHelpers

/-- Concrete primitive used by witnesses (a box named X). -/
def primX : Primitive :=
  { id := ("x"), name := ("X"), type := .box, operation := .add,
    position := ⟨0, 0, 0⟩, dimensions := ⟨some 1, some 1, some 1, none⟩ }

/-- Concrete primitive used by witnesses (a sphere named Y). -/
def primY : Primitive :=
  { id := ("y"), name := ("Y"), type := .sphere, operation := .subtract,
    position := ⟨1, 2, 3⟩, dimensions := ⟨none, none, none, some 2⟩ }

/-- Concrete primitive used by witnesses (a cylinder named Z). -/
def primZ : Primitive :=
  { id := ("z"), name := ("Z"), type := .cylinder, operation := .add,
    position := ⟨2, 0, 1⟩, dimensions := ⟨none, some 4, none, some 1⟩ }

/-- C9: the operation tag of a newly added primitive depends on the shape
kind: `addPrimitive` creates a box or cylinder tagged `add` and a sphere
tagged `subtract`, and appends the new primitive at the end of the list. -/
theorem C9_default_operation_by_kind (id : String) (nameNum : ℕ) (st : StoreState) :
    (newPrimitive id nameNum .box).operation = .add ∧
    (newPrimitive id nameNum .cylinder).operation = .add ∧
    (newPrimitive id nameNum .sphere).operation = .subtract ∧
    ∀ type, (addPrimitive id nameNum type st).primitives =
      st.primitives ++ [newPrimitive id nameNum type] :=
  ⟨rfl, rfl, rfl, fun _ => rfl⟩

/-- C6: removing the selected primitive (present, with a unique id) deletes
exactly that primitive; the selection becomes the id of the new last element,
or `none` when the store becomes empty. -/
theorem C6_remove_selected_reselects_last (A B : List Primitive) (t : Primitive)
    (hA : ∀ a ∈ A, a.id ≠ t.id) (hB : ∀ b ∈ B, b.id ≠ t.id) :
    removePrimitive t.id { primitives := A ++ t :: B, selectedId := some t.id } =
      { primitives := A ++ B,
        selectedId := (A ++ B).getLast?.map fun item => item.id } := by
  have hfilter : ((A ++ t :: B).filter fun item => item.id ≠ t.id) = A ++ B := by
    apply filter_append_middle
    · intro a ha; simpa using hA a ha
    · intro b hb; simpa using hB b hb
    · simp
  unfold removePrimitive
  simp only [hfilter]
  by_cases hempty : A ++ B = []
  · simp [hempty]
  · simp [List.isEmpty_iff, hempty]

/-- Witness for C6 at the spec's example: store `[X, Y, Z]` with `Y` selected;
removing `Y` yields `[X, Z]` with `Z` selected. -/
theorem C6_remove_selected_reselects_last_witness :
    removePrimitive ("y") { primitives := [primX, primY, primZ], selectedId := some ("y") } =
      { primitives := [primX, primZ], selectedId := some ("z") } := by
  have h := C6_remove_selected_reselects_last [primX] [primZ] primY
    (by decide) (by decide)
  simpa using h

/-- C10: `removePrimitive` re-points the selection to the new last element
whenever the selection does not refer to a primitive that survives the
filtering (this covers a removed selected id, a `null` selection, and a
dangling selection), and leaves the selection unchanged exactly when it refers
to a still-present primitive; the list always becomes the filtered list. -/
theorem C10_remove_selection_normalization (st : StoreState) (id : String) :
    ((removePrimitive id st).primitives =
      st.primitives.filter fun item => item.id ≠ id) ∧
    ((¬ ∃ p ∈ st.primitives.filter fun item => item.id ≠ id,
        st.selectedId = some p.id) →
      (removePrimitive id st).selectedId =
        ((st.primitives.filter fun item => item.id ≠ id).getLast?.map
          fun item => item.id)) ∧
    ((∃ p ∈ st.primitives.filter fun item => item.id ≠ id,
        st.selectedId = some p.id) →
      (removePrimitive id st).selectedId = st.selectedId) := by
  refine ⟨rfl, ?_, ?_⟩
  · intro hno
    have hany : ((st.primitives.filter fun item => item.id ≠ id).any
        fun item => st.selectedId = some item.id) = false := by
      rw [List.any_eq_false]
      intro p hp
      simp only [decide_eq_true_eq]
      exact fun hsel => hno ⟨p, hp, hsel⟩
    unfold removePrimitive
    dsimp only
    cases hF : (st.primitives.filter fun item => item.id ≠ id) with
    | nil => rfl
    | cons a as =>
      rw [hF] at hany
      rw [if_neg (by simp), if_pos (Or.inr (by rw [hany]; simp))]
  · rintro ⟨p, hp, hsel⟩
    have hpid : p.id ≠ id := by simpa using List.of_mem_filter hp
    have hsome : st.selectedId ≠ some id := by
      rw [hsel]
      simpa using fun h => hpid h
    have hany : ((st.primitives.filter fun item => item.id ≠ id).any
        fun item => st.selectedId = some item.id) = true := by
      rw [List.any_eq_true]
      exact ⟨p, hp, by simpa using hsel⟩
    unfold removePrimitive
    dsimp only
    cases hF : (st.primitives.filter fun item => item.id ≠ id) with
    | nil =>
      rw [hF] at hp
      exact absurd hp (List.not_mem_nil p)
    | cons a as =>
      rw [hF] at hany
      rw [if_neg (by simp), if_neg (by rw [hany]; simp [hsome])]

/-- Witness for C10: removing an id while nothing is selected re-points the
selection to the last remaining element. -/
theorem C10_remove_selection_normalization_witness :
    (removePrimitive ("q") { primitives := [primX, primY], selectedId := none }).selectedId =
      some ("y") := by
  have h := (C10_remove_selection_normalization
    { primitives := [primX, primY], selectedId := none } ("q")).2.1 (by decide)
  rw [h]
  decide

/-- C7 counterexample: `removePrimitive` on an id absent from the store is not
always a no-op on the store: with a non-empty list and a cleared selection it
re-points the selection to the last element, so the store state changes. -/
theorem C7_remove_absent_changes_store :
    removePrimitive ("q") { primitives := [primX], selectedId := none } ≠
      { primitives := [primX], selectedId := none } := by
  decide

/-- C7 (amended): all store mutators are total; `patchPrimitive` and
`reorderPrimitive` on an absent id leave the store fully unchanged;
`removePrimitive` on an absent id leaves the primitive list unchanged (and the
whole store unchanged whenever the selection refers to a present primitive,
though a cleared or dangling selection may be re-pointed); `reorderPrimitive`
is a no-op on the first element with direction -1 and on the last element with
direction +1, and swaps an interior element with its neighbour for direction ±1. -/
theorem C7_amended_mutator_noops :
    (∀ st id f, (∀ p ∈ st.primitives, p.id ≠ id) → patchPrimitive id f st = st) ∧
    (∀ st id, (∀ p ∈ st.primitives, p.id ≠ id) →
      (removePrimitive id st).primitives = st.primitives) ∧
    (∀ st id, (∀ p ∈ st.primitives, p.id ≠ id) →
      (∃ p ∈ st.primitives, st.selectedId = some p.id) →
      removePrimitive id st = st) ∧
    (∀ st id d, (∀ p ∈ st.primitives, p.id ≠ id) → reorderPrimitive id d st = st) ∧
    (∀ sel x rest,
      reorderPrimitive x.id (-1) { primitives := x :: rest, selectedId := sel } =
        { primitives := x :: rest, selectedId := sel }) ∧
    (∀ sel A x, (∀ a ∈ A, a.id ≠ x.id) →
      reorderPrimitive x.id 1 { primitives := A ++ [x], selectedId := sel } =
        { primitives := A ++ [x], selectedId := sel }) ∧
    (∀ sel A x y B, (∀ a ∈ A, a.id ≠ x.id) →
      reorderPrimitive x.id 1 { primitives := A ++ x :: y :: B, selectedId := sel } =
        { primitives := A ++ y :: x :: B, selectedId := sel }) ∧
    (∀ sel A x y B, (∀ a ∈ A, a.id ≠ y.id) → x.id ≠ y.id →
      reorderPrimitive y.id (-1) { primitives := A ++ x :: y :: B, selectedId := sel } =
        { primitives := A ++ y :: x :: B, selectedId := sel }) := by
  have hmapid : ∀ (id : String) (f : Primitive → Primitive) (l : List Primitive),
      (∀ p ∈ l, p.id ≠ id) →
      (l.map fun item => if item.id = id then f item else item) = l := by
    intro id f l hl
    induction l with
    | nil => rfl
    | cons a as ih =>
      rw [List.map_cons, if_neg (hl a (List.mem_cons_self a as)),
        ih fun p hp => hl p (List.mem_cons_of_mem a hp)]
  have hfilterid : ∀ (id : String) (l : List Primitive), (∀ p ∈ l, p.id ≠ id) →
      (l.filter fun item => item.id ≠ id) = l := by
    intro id l hl
    exact List.filter_eq_self.mpr fun a ha => by simpa using hl a ha
  refine ⟨?_, ?_, ?_, ?_, ?_, ?_, ?_, ?_⟩
  · intro st id f h
    show { st with primitives := _ } = st
    rw [hmapid id f st.primitives h]
  · intro st id h
    show (st.primitives.filter fun item => item.id ≠ id) = st.primitives
    exact hfilterid id st.primitives h
  · intro st id h hex
    obtain ⟨p, hp, hsel⟩ := hex
    have hsome : st.selectedId ≠ some id := by
      rw [hsel]
      intro hcontra
      exact h p hp (by simpa using hcontra)
    have hany : (st.primitives.any fun item => st.selectedId = some item.id) = true :=
      List.any_eq_true.mpr ⟨p, hp, by simpa using hsel⟩
    unfold removePrimitive
    dsimp only
    rw [hfilterid id st.primitives h]
    cases hL : st.primitives with
    | nil =>
      rw [hL] at hp
      exact absurd hp (List.not_mem_nil p)
    | cons a as =>
      rw [hL] at hany
      rw [if_neg (by simp), if_neg (by rw [hany]; simp [hsome]), ← hL]
  · intro st id d h
    unfold reorderPrimitive
    rw [List.findIdx?_eq_none_iff.mpr fun x hx => by simpa using h x hx]
  · intro sel x rest
    unfold reorderPrimitive
    rw [show ((x :: rest).findIdx? fun primitive => primitive.id = x.id) = some 0 by
      simp]
    dsimp only
    rw [if_pos (Or.inl (by decide))]
  · intro sel A x h
    unfold reorderPrimitive
    rw [findIdx?_append_first A [] x _ (fun a ha => by simpa using h a ha) (by simp)]
    dsimp only
    rw [if_pos (Or.inr (by simp))]
  · intro sel A x y B h
    unfold reorderPrimitive
    rw [findIdx?_append_first A (y :: B) x _ (fun a ha => by simpa using h a ha)
      (by simp)]
    dsimp only
    rw [if_neg (by simp [List.length_append]; omega)]
    rw [getElem?_append_length A (y :: B) x]
    dsimp only
    rw [eraseIdx_append_length A (y :: B) x]
    have htarget : ((A.length : ℤ) + 1).toNat = (A ++ [y]).length := by
      simp [List.length_append]
    rw [htarget, show A ++ y :: B = (A ++ [y]) ++ B by simp,
      insertIdx_append_length (A ++ [y]) B x]
    simp
  · intro sel A x y B hA hxy
    unfold reorderPrimitive
    have hablist : A ++ x :: y :: B = (A ++ [x]) ++ y :: B := by simp
    rw [hablist,
      findIdx?_append_first (A ++ [x]) B y _
        (fun a ha => by
          rcases List.mem_append.mp ha with h1 | h1
          · simpa using hA a h1
          · simp only [List.mem_singleton] at h1
            subst h1
            simpa using hxy)
        (by simp)]
    dsimp only
    rw [if_neg (by simp [List.length_append]; omega)]
    rw [getElem?_append_length (A ++ [x]) B y]
    dsimp only
    rw [eraseIdx_append_length (A ++ [x]) B y]
    have htarget : (((A ++ [x]).length : ℤ) + (-1)).toNat = A.length := by
      simp [List.length_append]
    rw [htarget, show (A ++ [x]) ++ B = A ++ x :: B by simp,
      insertIdx_append_length A (x :: B) y]

/-- Witness for C7 (amended), exercising each conjunct at concrete inputs:
mutators on the absent id `q` over the two-element store, the boundary
reorders, and the interior swaps on `[X, Y, Z]`. -/
theorem C7_amended_mutator_noops_witness :
    (patchPrimitive ("q") (fun p => p)
      { primitives := [primX, primY], selectedId := some ("x") } =
      { primitives := [primX, primY], selectedId := some ("x") }) ∧
    ((removePrimitive ("q")
      { primitives := [primX, primY], selectedId := some ("x") }).primitives =
      [primX, primY]) ∧
    (removePrimitive ("q")
      { primitives := [primX, primY], selectedId := some ("x") } =
      { primitives := [primX, primY], selectedId := some ("x") }) ∧
    (reorderPrimitive ("q") 1
      { primitives := [primX, primY], selectedId := some ("x") } =
      { primitives := [primX, primY], selectedId := some ("x") }) ∧
    (reorderPrimitive ("x") (-1)
      { primitives := [primX, primY], selectedId := none } =
      { primitives := [primX, primY], selectedId := none }) ∧
    (reorderPrimitive ("y") 1
      { primitives := [primX, primY], selectedId := none } =
      { primitives := [primX, primY], selectedId := none }) ∧
    (reorderPrimitive ("x") 1
      { primitives := [primX, primY, primZ], selectedId := none } =
      { primitives := [primY, primX, primZ], selectedId := none }) ∧
    (reorderPrimitive ("y") (-1)
      { primitives := [primX, primY, primZ], selectedId := none } =
      { primitives := [primY, primX, primZ], selectedId := none }) := by
  obtain ⟨h1, h2, h3, h4, h5, h6, h7, h8⟩ := C7_amended_mutator_noops
  refine ⟨?_, ?_, ?_, ?_, ?_, ?_, ?_, ?_⟩
  · exact h1 { primitives := [primX, primY], selectedId := some ("x") } ("q")
      (fun p => p) (by decide)
  · exact h2 { primitives := [primX, primY], selectedId := some ("x") } ("q")
      (by decide)
  · exact h3 { primitives := [primX, primY], selectedId := some ("x") } ("q")
      (by decide) ⟨primX, by decide, by decide⟩
  · exact h4 { primitives := [primX, primY], selectedId := some ("x") } ("q") 1
      (by decide)
  · exact h5 none primX [primY]
  · exact h6 none [primX] primY (by decide)
  · have h := h7 none [] primX primY [primZ] (by decide)
    simpa using h
  · have h := h8 none [] primX primY [primZ] (by decide) (by decide)
    simpa using h

/-- `clampDimension(value, fallback = 0.1)` (App.jsx:748):
`Math.max(fallback, Number.isFinite(value) ? value : fallback)`.  The JS
default `fallback = 0.1` is passed explicitly (`1/10`) at every call site. -/
def clampDimension (value : Option ℚ) (fallback : ℚ) : ℚ :=
  max fallback (value.getD fallback)

/-- `Math.max(a, b)` where `b` may be `NaN`/`undefined` (`none`); `Math.max`
propagates `NaN`. -/
def jsMax (a : ℚ) (b : Option ℚ) : Option ℚ :=
  b.map fun v => max a v

/-- `computeScaledDimensions(type, baseDimensions, scale)` (App.jsx:750-772):
per-kind dimension update from a scale factor.  Box: each side times the
absolute axis multiplier; sphere: radius times the mean of the three absolute
multipliers; cylinder: radius times the mean of |x| and |z|, height times |y|.
Each result is clamped (`clampDimension`) then rounded (`roundValue`).  A
missing base field propagates as `NaN` into `clampDimension` (hence `0.1`). -/
def computeScaledDimensions (type : ShapeType) (baseDimensions : Dimensions)
    (scale : Option Vec3) : Option Dimensions :=
  match scale with
  | none => none
  | some scale =>
    match type with
    | .box =>
      some
        { width := some (roundValue (clampDimension
            (baseDimensions.width.map fun w => w * |scale.x|) (1/10)) 2)
          height := some (roundValue (clampDimension
            (baseDimensions.height.map fun h => h * |scale.y|) (1/10)) 2)
          depth := some (roundValue (clampDimension
            (baseDimensions.depth.map fun d => d * |scale.z|) (1/10)) 2)
          radius := none }
    | .sphere =>
      let uniformScale := (|scale.x| + |scale.y| + |scale.z|) / 3
      some
        { width := none, height := none, depth := none
          radius := some (roundValue (clampDimension
            (baseDimensions.radius.map fun r => r * uniformScale) (1/10)) 2) }
    | .cylinder =>
      let radialScale := (|scale.x| + |scale.z|) / 2
      some
        { width := none, depth := none
          radius := some (roundValue (clampDimension
            (baseDimensions.radius.map fun r => r * radialScale) (1/10)) 2)
          height := some (roundValue (clampDimension
            (baseDimensions.height.map fun h => h * |scale.y|) (1/10)) 2) }

/-- Box width edit in `PrimitiveInspector` (App.jsx:613-621):
`handleDimensionsChange('width', parseNumber(input, dimensions.width))` —
note: no clamping. -/
def inspectorBoxWidthEdit (input : Option ℚ) (p : Primitive) : Primitive :=
  { p with dimensions :=
      { p.dimensions with width := parseNumber input p.dimensions.width } }

/-- Box height edit in `PrimitiveInspector` (App.jsx:622-632): no clamping. -/
def inspectorBoxHeightEdit (input : Option ℚ) (p : Primitive) : Primitive :=
  { p with dimensions :=
      { p.dimensions with height := parseNumber input p.dimensions.height } }

/-- Box depth edit in `PrimitiveInspector` (App.jsx:633-641): no clamping. -/
def inspectorBoxDepthEdit (input : Option ℚ) (p : Primitive) : Primitive :=
  { p with dimensions :=
      { p.dimensions with depth := parseNumber input p.dimensions.depth } }

/-- Sphere radius edit in `PrimitiveInspector` (App.jsx:645-656):
`Math.max(0.1, parseNumber(input, dimensions.radius))`. -/
def inspectorSphereRadiusEdit (input : Option ℚ) (p : Primitive) : Primitive :=
  { p with dimensions :=
      { p.dimensions with
        radius := jsMax (1/10) (parseNumber input p.dimensions.radius) } }

/-- Cylinder radius edit in `PrimitiveInspector` (App.jsx:661-671): clamped at 0.1. -/
def inspectorCylinderRadiusEdit (input : Option ℚ) (p : Primitive) : Primitive :=
  { p with dimensions :=
      { p.dimensions with
        radius := jsMax (1/10) (parseNumber input p.dimensions.radius) } }

/-- Cylinder height edit in `PrimitiveInspector` (App.jsx:672-682): clamped at 0.1. -/
def inspectorCylinderHeightEdit (input : Option ℚ) (p : Primitive) : Primitive :=
  { p with dimensions :=
      { p.dimensions with
        height := jsMax (1/10) (parseNumber input p.dimensions.height) } }

/-- Type change in `PrimitiveInspector` (App.jsx:546-565): sets the new type
and resets the dimensions to the new kind's preset defaults. -/
def inspectorTypeChange (nextType : ShapeType) (p : Primitive) : Primitive :=
  { p with type := nextType, dimensions := (TYPE_PRESETS nextType).dimensions }

/-- `clampSize(value, min = 0.1)` in `DimensionIndicators` (App.jsx:827):
`roundValue(Math.max(min, parseNumber(value, 0)))`.  `parseNumber` with the
finite fallback `0` always yields a number, extracted with `.getD 0`. -/
def clampSize (value : Option ℚ) (min : ℚ) : ℚ :=
  roundValue (max min ((parseNumber value (some 0)).getD 0)) 2

/-- Box width arrow commit (App.jsx:841-849): `{ width: clampSize(value) }`
merged over the current dimensions. -/
def arrowCommitBoxWidth (value : Option ℚ) (p : Primitive) : Primitive :=
  { p with dimensions :=
      { p.dimensions with width := some (clampSize value (1/10)) } }

/-- Box depth arrow commit (App.jsx:852-861). -/
def arrowCommitBoxDepth (value : Option ℚ) (p : Primitive) : Primitive :=
  { p with dimensions :=
      { p.dimensions with depth := some (clampSize value (1/10)) } }

/-- Box height arrow commit (App.jsx:863-872). -/
def arrowCommitBoxHeight (value : Option ℚ) (p : Primitive) : Primitive :=
  { p with dimensions :=
      { p.dimensions with height := some (clampSize value (1/10)) } }

/-- Sphere diameter arrow commit (App.jsx:879-888):
`{ radius: clampSize(value, 0.2) / 2 }`. -/
def arrowCommitSphereDiameter (value : Option ℚ) (p : Primitive) : Primitive :=
  { p with dimensions :=
      { p.dimensions with radius := some (clampSize value (2/10) / 2) } }

/-- Cylinder height arrow commit (App.jsx:900-909). -/
def arrowCommitCylinderHeight (value : Option ℚ) (p : Primitive) : Primitive :=
  { p with dimensions :=
      { p.dimensions with height := some (clampSize value (1/10)) } }

/-- Cylinder diameter arrow commit (App.jsx:911-919):
`{ radius: clampSize(value, 0.2) / 2 }`. -/
def arrowCommitCylinderDiameter (value : Option ℚ) (p : Primitive) : Primitive :=
  { p with dimensions :=
      { p.dimensions with radius := some (clampSize value (2/10) / 2) } }

/-- A dimension field holds a finite value at least the floor 0.1. -/
def dimAtLeastFloor (value : Option ℚ) : Bool :=
  match value with
  | some v => decide ((1/10 : ℚ) ≤ v)
  | none => false

/-- Rounding to 2 decimals preserves any lower bound that is a multiple of
1/100: if `n/100 ≤ v` then `n/100 ≤ roundValue v 2`. -/
theorem le100_roundValue (n : ℤ) (v : ℚ) (h : (n : ℚ)/100 ≤ v) :
    (n : ℚ)/100 ≤ roundValue v 2 := by
  have hn : n ≤ round (v * 10 ^ 2) := by
    rw [round_eq, Int.le_floor]
    nlinarith
  have hn' : ((n : ℚ)) ≤ ((round (v * 10 ^ 2) : ℤ) : ℚ) := by exact_mod_cast hn
  show (n : ℚ)/100 ≤ ((round (v * 10 ^ 2) : ℤ) : ℚ) / 10 ^ 2
  have hpow : ((10 : ℚ) ^ 2) = 100 := by norm_num
  rw [hpow] at hn' ⊢
  linarith

/-- Rounding to 2 decimals preserves the floor 0.1. -/
theorem le_roundValue_of_le (v : ℚ) (h : (1/10 : ℚ) ≤ v) :
    (1/10 : ℚ) ≤ roundValue v 2 := by
  have h10 := le100_roundValue 10 v (by push_cast; linarith)
  push_cast at h10
  linarith

/-- Clamping then rounding always yields at least the floor 0.1. -/
theorem clampRound_floor (value : Option ℚ) :
    (1/10 : ℚ) ≤ roundValue (clampDimension value (1/10)) 2 :=
  le_roundValue_of_le _ (le_max_left _ _)

/-- `clampSize` with a floor at least `n/100` yields at least `n/100`. -/
theorem clampSize_ge_min (value : Option ℚ) (m : ℚ) (n : ℤ) (hm : (n : ℚ)/100 ≤ m) :
    (n : ℚ)/100 ≤ clampSize value m :=
  le100_roundValue n _ (le_trans hm (le_max_left _ _))

/-- The clamp-then-round pattern of `computeScaledDimensions` satisfies the
dimension floor. -/
theorem dimAtLeastFloor_clampRound (value : Option ℚ) :
    dimAtLeastFloor (some (roundValue (clampDimension value (1/10)) 2)) = true := by
  simp only [dimAtLeastFloor, decide_eq_true_eq]
  exact clampRound_floor value

/-- C3: the Dimension-from-Scale Resolver multiplies box sides independently
by the absolute axis multipliers, the sphere radius by the arithmetic mean of
all three absolute multipliers, and the cylinder radius by the mean of |x| and
|z| with height by |y|; every result is clamped to the floor 0.1 and rounded
to 2 decimal places, and every returned dimension is at least 0.1, even for a
zero or negative scale. -/
theorem C3_scale_resolver (base : Dimensions) (scale : Vec3) :
    (∀ w h d, base.width = some w → base.height = some h → base.depth = some d →
      computeScaledDimensions .box base (some scale) = some
        { width := some (roundValue (max (1/10) (w * |scale.x|)) 2)
          height := some (roundValue (max (1/10) (h * |scale.y|)) 2)
          depth := some (roundValue (max (1/10) (d * |scale.z|)) 2)
          radius := none }) ∧
    (∀ r, base.radius = some r →
      computeScaledDimensions .sphere base (some scale) = some
        { width := none, height := none, depth := none
          radius := some (roundValue
            (max (1/10) (r * ((|scale.x| + |scale.y| + |scale.z|) / 3))) 2) }) ∧
    (∀ r h, base.radius = some r → base.height = some h →
      computeScaledDimensions .cylinder base (some scale) = some
        { width := none, depth := none
          radius := some (roundValue (max (1/10) (r * ((|scale.x| + |scale.z|) / 2))) 2)
          height := some (roundValue (max (1/10) (h * |scale.y|)) 2) }) ∧
    (∀ type dims, computeScaledDimensions type base (some scale) = some dims →
      match type with
      | .box => dimAtLeastFloor dims.width ∧ dimAtLeastFloor dims.height ∧
          dimAtLeastFloor dims.depth
      | .sphere => dimAtLeastFloor dims.radius
      | .cylinder => dimAtLeastFloor dims.radius ∧ dimAtLeastFloor dims.height) := by
  refine ⟨?_, ?_, ?_, ?_⟩
  · intro w h d hw hh hd
    simp only [computeScaledDimensions, hw, hh, hd, Option.map_some',
      clampDimension, Option.getD_some]
  · intro r hr
    simp only [computeScaledDimensions, hr, Option.map_some',
      clampDimension, Option.getD_some]
  · intro r h hr hh
    simp only [computeScaledDimensions, hr, hh, Option.map_some',
      clampDimension, Option.getD_some]
  · intro type dims hdims
    cases type with
    | box =>
      have hd := Option.some.inj hdims
      subst hd
      exact ⟨dimAtLeastFloor_clampRound _, dimAtLeastFloor_clampRound _,
        dimAtLeastFloor_clampRound _⟩
    | sphere =>
      have hd := Option.some.inj hdims
      subst hd
      exact dimAtLeastFloor_clampRound _
    | cylinder =>
      have hd := Option.some.inj hdims
      subst hd
      exact ⟨dimAtLeastFloor_clampRound _, dimAtLeastFloor_clampRound _⟩

/-- Witness for C3: the spec's box example `{2,2,2}` at scale `(2, 0.5, 3)`
resolves to `{4, 1, 6}`, and a sphere of radius 1 at scale `(0,0,0)` resolves
to the floor radius 0.1. -/
theorem C3_scale_resolver_witness :
    computeScaledDimensions .box ⟨some 2, some 2, some 2, none⟩
        (some ⟨2, 1/2, 3⟩) = some ⟨some 4, some 1, some 6, none⟩ ∧
    computeScaledDimensions .sphere ⟨none, none, none, some 1⟩
        (some ⟨0, 0, 0⟩) = some ⟨none, none, none, some (1/10)⟩ := by
  constructor
  · rw [(C3_scale_resolver ⟨some 2, some 2, some 2, none⟩ ⟨2, 1/2, 3⟩).1
      2 2 2 rfl rfl rfl]
    norm_num [roundValue, max_def, abs]
  · rw [(C3_scale_resolver ⟨none, none, none, some 1⟩ ⟨0, 0, 0⟩).2.1 1 rfl]
    norm_num [roundValue, max_def, abs]

/-- C1 counterexample: a box width edit in the inspector is not clamped: an
input parsing to -5 is stored as width -5, a non-positive dimension. -/
theorem C1_box_width_edit_not_clamped :
    (inspectorBoxWidthEdit (some (-5)) primX).dimensions.width = some (-5) ∧
    ¬ ((0 : ℚ) < -5) := by
  constructor
  · rfl
  · decide

/-- C1 (amended): sphere and cylinder inspector edits, all dimension-arrow
commits, resize commits, and type-change resets keep every relevant dimension
field at least the floor 0.1; box inspector dimension edits are the exception:
they only fall back to the previous value on non-finite input and can store a
non-positive number. -/
theorem C1_amended_dimension_clamping :
    (∀ input p r, p.dimensions.radius = some r →
      dimAtLeastFloor ((inspectorSphereRadiusEdit input p).dimensions.radius)) ∧
    (∀ input p r, p.dimensions.radius = some r →
      dimAtLeastFloor ((inspectorCylinderRadiusEdit input p).dimensions.radius)) ∧
    (∀ input p h, p.dimensions.height = some h →
      dimAtLeastFloor ((inspectorCylinderHeightEdit input p).dimensions.height)) ∧
    (∀ input p, dimAtLeastFloor ((arrowCommitBoxWidth input p).dimensions.width)) ∧
    (∀ input p, dimAtLeastFloor ((arrowCommitBoxHeight input p).dimensions.height)) ∧
    (∀ input p, dimAtLeastFloor ((arrowCommitBoxDepth input p).dimensions.depth)) ∧
    (∀ input p,
      dimAtLeastFloor ((arrowCommitSphereDiameter input p).dimensions.radius)) ∧
    (∀ input p,
      dimAtLeastFloor ((arrowCommitCylinderHeight input p).dimensions.height)) ∧
    (∀ input p,
      dimAtLeastFloor ((arrowCommitCylinderDiameter input p).dimensions.radius)) ∧
    (∀ type base scale dims,
      computeScaledDimensions type base (some scale) = some dims →
      match type with
      | .box => dimAtLeastFloor dims.width ∧ dimAtLeastFloor dims.height ∧
          dimAtLeastFloor dims.depth
      | .sphere => dimAtLeastFloor dims.radius
      | .cylinder => dimAtLeastFloor dims.radius ∧ dimAtLeastFloor dims.height) ∧
    (∀ p, dimAtLeastFloor ((inspectorTypeChange .box p).dimensions.width) ∧
      dimAtLeastFloor ((inspectorTypeChange .box p).dimensions.height) ∧
      dimAtLeastFloor ((inspectorTypeChange .box p).dimensions.depth) ∧
      dimAtLeastFloor ((inspectorTypeChange .sphere p).dimensions.radius) ∧
      dimAtLeastFloor ((inspectorTypeChange .cylinder p).dimensions.radius) ∧
      dimAtLeastFloor ((inspectorTypeChange .cylinder p).dimensions.height)) := by
  have hmaxFloor : ∀ (fallback : Option ℚ) (input : Option ℚ) (r : ℚ),
      fallback = some r →
      dimAtLeastFloor (jsMax (1/10) (parseNumber input fallback)) = true := by
    intro fallback input r hf
    subst hf
    cases input with
    | some v => exact decide_eq_true (le_max_left _ _)
    | none => exact decide_eq_true (le_max_left _ _)
  have hsize : ∀ input : Option ℚ,
      dimAtLeastFloor (some (clampSize input (1/10))) = true := by
    intro input
    simp only [dimAtLeastFloor, decide_eq_true_eq]
    have := clampSize_ge_min input (1/10) 10 (by norm_num)
    push_cast at this
    linarith
  have hdiam : ∀ input : Option ℚ,
      dimAtLeastFloor (some (clampSize input (2/10) / 2)) = true := by
    intro input
    simp only [dimAtLeastFloor, decide_eq_true_eq]
    have := clampSize_ge_min input (2/10) 20 (by norm_num)
    push_cast at this
    linarith
  refine ⟨?_, ?_, ?_, ?_, ?_, ?_, ?_, ?_, ?_, ?_, ?_⟩
  · intro input p r hr
    exact hmaxFloor p.dimensions.radius input r hr
  · intro input p r hr
    exact hmaxFloor p.dimensions.radius input r hr
  · intro input p h hh
    exact hmaxFloor p.dimensions.height input h hh
  · intro input p
    exact hsize input
  · intro input p
    exact hsize input
  · intro input p
    exact hsize input
  · intro input p
    exact hdiam input
  · intro input p
    exact hsize input
  · intro input p
    exact hdiam input
  · intro type base scale dims hdims
    cases type with
    | box =>
      have hd := Option.some.inj hdims
      subst hd
      exact ⟨dimAtLeastFloor_clampRound _, dimAtLeastFloor_clampRound _,
        dimAtLeastFloor_clampRound _⟩
    | sphere =>
      have hd := Option.some.inj hdims
      subst hd
      exact dimAtLeastFloor_clampRound _
    | cylinder =>
      have hd := Option.some.inj hdims
      subst hd
      exact ⟨dimAtLeastFloor_clampRound _, dimAtLeastFloor_clampRound _⟩
  · intro p
    refine ⟨?_, ?_, ?_, ?_, ?_, ?_⟩ <;> exact decide_eq_true (by norm_num)

/-- Witness for C1 (amended): concrete clamped edits on the witness
primitives, and a concrete resize commit hitting the floor. -/
theorem C1_amended_dimension_clamping_witness :
    dimAtLeastFloor ((inspectorSphereRadiusEdit (some (-3)) primY).dimensions.radius) ∧
    dimAtLeastFloor ((inspectorCylinderRadiusEdit (some 0) primZ).dimensions.radius) ∧
    dimAtLeastFloor ((inspectorCylinderHeightEdit none primZ).dimensions.height) ∧
    dimAtLeastFloor ((arrowCommitBoxWidth (some (-7)) primX).dimensions.width) ∧
    dimAtLeastFloor ((arrowCommitSphereDiameter (some 0) primY).dimensions.radius) ∧
    dimAtLeastFloor (some ((1 : ℚ)/10)) := by
  obtain ⟨h1, h2, h3, h4, h5, h6, h7, h8, h9, h10, h11⟩ := C1_amended_dimension_clamping
  exact ⟨h1 (some (-3)) primY 2 rfl, h2 (some 0) primZ 1 rfl, h3 none primZ 4 rfl,
    h4 (some (-7)) primX, h7 (some 0) primY,
    h10 .sphere ⟨none, none, none, some 1⟩ ⟨0, 0, 0⟩
      ⟨none, none, none, some (1/10)⟩
      (by norm_num [computeScaledDimensions, clampDimension, roundValue, max_def, abs])⟩

/-- A THREE.js geometry constructed by `primitiveToMesh` (App.jsx:729-746):
`BoxGeometry(width, height, depth)`, `SphereGeometry(radius, 48, 32)` or
`CylinderGeometry(radius, radius, height, 48)`, with the constructor arguments
recorded as passed (a missing dimension field passes `undefined` = `none`). -/
inductive GeometryDesc where
  | boxGeometry (width height depth : Option ℚ)
  | sphereGeometry (radius : Option ℚ) (widthSegments heightSegments : ℕ)
  | cylinderGeometry (radiusTop radiusBottom height : Option ℚ) (radialSegments : ℕ)
  deriving DecidableEq, Repr

/-- A THREE.Mesh as produced by `primitiveToMesh`: a geometry positioned at
the primitive's engine-space coordinates. -/
structure MeshModel where
  geometry : GeometryDesc
  position : Vec3
  deriving DecidableEq, Repr

/-- `primitiveToMesh(primitive)` (App.jsx:729-746): tessellate the primitive's
shape (box for `'box'`, sphere for `'sphere'`, cylinder otherwise) and place
the mesh at `positionToWorld(position)`.  The `operation` tag is not read. -/
def primitiveToMesh (primitive : Primitive) : MeshModel :=
  { geometry :=
      match primitive.type with
      | .box => .boxGeometry primitive.dimensions.width primitive.dimensions.height
          primitive.dimensions.depth
      | .sphere => .sphereGeometry primitive.dimensions.radius 48 32
      | .cylinder => .cylinderGeometry primitive.dimensions.radius
          primitive.dimensions.radius primitive.dimensions.height 48
    position := positionToWorld primitive.position }

/-- The boolean-geometry collaborator's internal representation, kept opaque:
`CSG.fromMesh` lifts a mesh, `union` and `subtract` combine two values.  The
free term algebra records exactly which operations were applied in which
order. -/
inductive CSGRep where
  | fromMesh (mesh : MeshModel)
  | union (a b : CSGRep)
  | subtract (a b : CSGRep)
  deriving DecidableEq, Repr

/-- The output of `buildCombinedMesh`: the final accumulator lowered back to a
mesh (`CSG.toMesh`), marked as a shadow caster and receiver. -/
structure CombinedMesh where
  csg : CSGRep
  castShadow : Bool
  receiveShadow : Bool
  deriving DecidableEq, Repr

/-- The `for` loop of `buildCombinedMesh` (App.jsx:710-715): fold the
remaining primitives into the accumulator, subtracting when the primitive's
operation is `'subtract'` and unioning otherwise. -/
def combineLoop (merged : CSGRep) : List Primitive → CSGRep
  | [] => merged
  | primitive :: rest =>
    let next := CSGRep.fromMesh (primitiveToMesh primitive)
    combineLoop (if primitive.operation = .subtract
      then CSGRep.subtract merged next else CSGRep.union merged next) rest

/-- `buildCombinedMesh(primitives)` (App.jsx:705-727): `null` for an empty
list; otherwise primitive 0's mesh is lifted as the initial accumulator
(unconditionally), the rest are folded in list order, and the result is
lowered to a mesh with shadows enabled. -/
def buildCombinedMesh : List Primitive → Option CombinedMesh
  | [] => none
  | first :: rest =>
    some
      { csg := combineLoop (CSGRep.fromMesh (primitiveToMesh first)) rest
        castShadow := true
        receiveShadow := true }

/-- The combining step as the spec words it: union the primitive's lifted mesh
into the accumulator when its operation is `add`, set-difference it when
`subtract`. -/
def specCombineStep (acc : CSGRep) (primitive : Primitive) : CSGRep :=
  match primitive.operation with
  | .add => CSGRep.union acc (CSGRep.fromMesh (primitiveToMesh primitive))
  | .subtract => CSGRep.subtract acc (CSGRep.fromMesh (primitiveToMesh primitive))

/-- The source loop agrees with the spec-worded left fold. -/
theorem combineLoop_eq_foldl (l : List Primitive) (acc : CSGRep) :
    combineLoop acc l = l.foldl specCombineStep acc := by
  induction l generalizing acc with
  | nil => rfl
  | cons primitive rest ih =>
    rw [List.foldl_cons, combineLoop, ← ih]
    cases hop : primitive.operation <;> simp [specCombineStep, hop]

/-- C2: the Solid Builder returns `none` exactly on the empty list; on
`first :: rest` it starts from primitive 0's lifted mesh unconditionally (the
result does not depend on primitive 0's operation tag) and folds the rest in
list order, union for `add` and set-difference for `subtract`. -/
theorem C2_solid_builder_fold :
    (∀ primitives, buildCombinedMesh primitives = none ↔ primitives = []) ∧
    (∀ first rest, buildCombinedMesh (first :: rest) =
      some
        { csg := rest.foldl specCombineStep (CSGRep.fromMesh (primitiveToMesh first))
          castShadow := true
          receiveShadow := true }) ∧
    (∀ first rest op,
      buildCombinedMesh ({ first with operation := op } :: rest) =
        buildCombinedMesh (first :: rest)) := by
  refine ⟨?_, ?_, ?_⟩
  · intro primitives
    cases primitives with
    | nil => simp [buildCombinedMesh]
    | cons first rest => simp [buildCombinedMesh]
  · intro first rest
    rw [buildCombinedMesh, combineLoop_eq_foldl]
  · intro first rest op
    rfl

/-- The transform-session state of `EditablePrimitive` (App.jsx:415-519): the
committed store fields for the selected primitive (dimensions and position),
the proxy mesh's live engine-space transform (scale and position), and
`sessionRef` (the dimensions snapshot taken at pointer-down in resize mode). -/
structure SessionState where
  storeDims : Dimensions
  storePosition : Vec3
  proxyScale : Vec3
  proxyPosition : Vec3
  session : Option Dimensions
  deriving DecidableEq, Repr

/-- The events of a transform session: `pointerDown` (`onMouseDown` of the
handle), `drag` (the external handle mutating the proxy transform), `release`
(`onMouseUp`), and `deselect` (selection switch/clear, which unmounts the
handle without firing `onMouseUp`; `sessionRef` persists). -/
inductive TEvent where
  | pointerDown
  | drag (scale position : Vec3)
  | release
  | deselect
  deriving DecidableEq, Repr

/-- The handle mode toggle (`HANDLE_MODES`, App.jsx:62-65). -/
inductive HandleModeKind where
  | move
  | resize
  deriving DecidableEq, Repr

/-- One step of the transform session, from the handlers in
`EditablePrimitive` (App.jsx:470-519): `onMouseDown` snapshots the dimensions
in resize mode; a drag touches only the proxy transform; `onMouseUp` runs
`finalizeResize` then `finalizeTranslate` (each guarded by its mode) and
clears `sessionRef`; a deselect unmounts the handle without committing. -/
def tstep (mode : HandleModeKind) (type : ShapeType) (st : SessionState) :
    TEvent → SessionState
  | .pointerDown =>
    if mode = .resize then { st with session := some st.storeDims } else st
  | .drag scale position => { st with proxyScale := scale, proxyPosition := position }
  | .release =>
    let st1 :=
      if mode = .resize then
        match st.session with
        | none => st
        | some startDimensions =>
          let committed :=
            match computeScaledDimensions type startDimensions (some st.proxyScale) with
            | some nextDimensions => { st with storeDims := nextDimensions }
            | none => st
          { committed with proxyScale := ⟨1, 1, 1⟩ }
      else st
    let st2 :=
      if mode = .move then
        { st1 with storePosition := finalizeTranslatePosition st1.proxyPosition }
      else st1
    { st2 with session := none }
  | .deselect => st

/-- C8: while a transform session is active, no event other than `release`
writes the store: any event trace without a `release` — in particular a
resize started with `pointerDown`, dragged, and discarded by `deselect` —
leaves the committed dimensions and position exactly as they were. -/
theorem C8_no_store_write_without_release (mode : HandleModeKind)
    (type : ShapeType) (trace : List TEvent) (st : SessionState)
    (h : TEvent.release ∉ trace) :
    (trace.foldl (tstep mode type) st).storeDims = st.storeDims ∧
    (trace.foldl (tstep mode type) st).storePosition = st.storePosition := by
  induction trace generalizing st with
  | nil => exact ⟨rfl, rfl⟩
  | cons e es ih =>
    have he : e ≠ TEvent.release := fun hcontra => h (hcontra ▸ List.mem_cons_self e es)
    have hes : TEvent.release ∉ es := fun hmem => h (List.mem_cons_of_mem e hmem)
    have hstep : (tstep mode type st e).storeDims = st.storeDims ∧
        (tstep mode type st e).storePosition = st.storePosition := by
      cases e with
      | pointerDown =>
        by_cases hm : mode = .resize <;> simp [tstep, hm]
      | drag s q => exact ⟨rfl, rfl⟩
      | release => exact absurd rfl he
      | deselect => exact ⟨rfl, rfl⟩
    rw [List.foldl_cons]
    obtain ⟨hd, hp⟩ := ih (tstep mode type st e) hes
    exact ⟨hd.trans hstep.1, hp.trans hstep.2⟩

/-- Witness for C8: a concrete resize session (snapshot, drag, deselect, no
release) leaves the concrete store fields unchanged. -/
theorem C8_no_store_write_without_release_witness :
    (([TEvent.pointerDown, TEvent.drag ⟨2, 3, 4⟩ ⟨5, 6, 7⟩,
        TEvent.deselect].foldl (tstep .resize .box)
      ⟨⟨some 1, some 1, some 1, none⟩, ⟨0, 0, 0⟩, ⟨1, 1, 1⟩, ⟨0, 0, 0⟩, none⟩).storeDims =
      ⟨some 1, some 1, some 1, none⟩) ∧
    (([TEvent.pointerDown, TEvent.drag ⟨2, 3, 4⟩ ⟨5, 6, 7⟩,
        TEvent.deselect].foldl (tstep .resize .box)
      ⟨⟨some 1, some 1, some 1, none⟩, ⟨0, 0, 0⟩, ⟨1, 1, 1⟩, ⟨0, 0, 0⟩, none⟩).storePosition =
      ⟨0, 0, 0⟩) :=
  C8_no_store_write_without_release .resize .box
    [TEvent.pointerDown, TEvent.drag ⟨2, 3, 4⟩ ⟨5, 6, 7⟩, TEvent.deselect]
    ⟨⟨some 1, some 1, some 1, none⟩, ⟨0, 0, 0⟩, ⟨1, 1, 1⟩, ⟨0, 0, 0⟩, none⟩
    (by decide)

/-- C4: the coordinate remap functions `positionToWorld` (toEngine) and
`positionFromWorld` (toUser) are exact mutual inverses: each is the pure
component permutation (x, z, y), so composing them in either order is the
identity, with no rounding loss. -/
theorem C4_remap_involution (p : Vec3) :
    positionFromWorld (positionToWorld p) = p ∧
    positionToWorld (positionFromWorld p) = p := by
  constructor <;> rfl

/-- C5: the translate commit (round each engine-space component, then remap to
user space) equals the spec's order (remap to user space, then round each
component): componentwise rounding commutes with the component permutation. -/
theorem C5_translate_round_remap_commute (enginePos : Vec3) :
    finalizeTranslatePosition enginePos = roundVec (positionFromWorld enginePos) := by
  rfl
